import Mathlib

/-!
Verification of the K-Lab accounting bot's reconciliation core.

The Python source (`csv_import_manager.py`, `payment_reminder_export.py`)
is embedded shallowly: pandas data frames become lists of records, the
JSON member database becomes an association list, and the stateful
load/mutate/save cycle becomes explicit state passing.  Fallible paths
(exceptions caught by the top-level handler) return `Option`.
-/

/-- Zero-pad a natural number to two digits, as Python's `f"{n:02d}"` /
`strftime("%m")` do for the values that occur here. -/
def pad2 (n : Nat) : String :=
  if n < 10 then "0" ++ toString n else toString n

/-- Digit-string to number, on a list of digit characters. -/
def digitsToNat (cs : List Char) : Nat :=
  cs.foldl (fun n c => 10 * n + (c.toNat - 48)) 0

/-- Non-empty and all characters decimal digits. -/
def isDigits (cs : List Char) : Bool :=
  !cs.isEmpty && cs.all (·.isDigit)

/-- ASCII whitespace as stripped by Python's `str.strip()`. -/
def isWSChar (c : Char) : Bool :=
  c == ' ' || c == '\t' || c == '\n' || c == '\r'

/-- Strip leading and trailing whitespace from a character list. -/
def trimChars (cs : List Char) : List Char :=
  ((cs.dropWhile isWSChar).reverse.dropWhile isWSChar).reverse

/-- Python's `str.strip()` on the strings that occur here. -/
def strTrim (s : String) : String :=
  ⟨trimChars s.data⟩

/-- Lower-casing of one character, covering ASCII letters and the German
umlauts appearing in this repository's data (Python `str.lower()`). -/
def toLowerChar (c : Char) : Char :=
  if 65 ≤ c.toNat && c.toNat ≤ 90 then Char.ofNat (c.toNat + 32)
  else if c = 'Ä' then 'ä'
  else if c = 'Ö' then 'ö'
  else if c = 'Ü' then 'ü'
  else c

/-- Python's `str.lower()` on the strings that occur here. -/
def strLower (s : String) : String :=
  ⟨s.data.map toLowerChar⟩

/-- Split a character list at every occurrence of a separator character. -/
def splitOnChar (sep : Char) : List Char → List (List Char)
  | [] => [[]]
  | c :: rest =>
      let r := splitOnChar sep rest
      if c == sep then [] :: r
      else
        match r with
        | [] => [[c]]
        | h :: t => (c :: h) :: t

/-- Decimal parsing as `pd.to_numeric` performs it on the amount strings that
occur in a bank CSV: optional surrounding whitespace, optional minus sign,
an integer part and an optional fractional part, at least one digit in
total.  Unparseable input yields `none` (pandas `errors="coerce"` → NaN). -/
def parseDecimal (s : String) : Option ℚ :=
  let t := trimChars s.data
  let (neg, u) : Bool × List Char :=
    match t with
    | '-' :: rest => (true, rest)
    | _ => (false, t)
  let signed : ℚ → ℚ := fun q => if neg then -q else q
  match splitOnChar '.' u with
  | [a] =>
      if isDigits a then some (signed (digitsToNat a)) else none
  | [a, b] =>
      if (isDigits a && (b.isEmpty || isDigits b)) ||
         (a.isEmpty && isDigits b) then
        some (signed ((digitsToNat a : ℚ) +
          (digitsToNat b : ℚ) / ((10 : ℚ) ^ b.length)))
      else none
  | _ => none

/-- Gregorian leap-year rule, as used by `datetime`. -/
def isLeapYear (y : Nat) : Bool :=
  y % 4 == 0 && (y % 100 != 0 || y % 400 == 0)

/-- Days in a month of a given year. -/
def daysInMonth (y m : Nat) : Nat :=
  if m = 2 then (if isLeapYear y then 29 else 28)
  else if m = 4 ∨ m = 6 ∨ m = 9 ∨ m = 11 then 30
  else 31

/-- A calendar date as `pandas.Timestamp` exposes it (`.day`, `.month`,
`.year`). -/
structure Date where
  day : Nat
  month : Nat
  year : Nat
deriving Repr, DecidableEq

/-- Exact `%d.%m.%Y` parsing as `pd.to_datetime(..., format="%d.%m.%Y",
errors="coerce")` performs it: three dot-separated numeric fields consuming
the whole string (day and month at most two digits, year at most four),
validated against the calendar; failure yields `none` (NaT). -/
def parseDateExact (s : String) : Option Date :=
  match splitOnChar '.' s.data with
  | [d, m, y] =>
      if isDigits d && d.length ≤ 2 &&
         isDigits m && m.length ≤ 2 &&
         isDigits y && y.length ≤ 4 then
        let dn := digitsToNat d
        let mn := digitsToNat m
        let yn := digitsToNat y
        if 1 ≤ mn && mn ≤ 12 && 1 ≤ dn && dn ≤ daysInMonth yn mn then
          some ⟨dn, mn, yn⟩
        else none
      else none
  | _ => none

/-- The month-name table of `_add_smart_month_defaults`
(`{1: "Januar", ..., 12: "Dezember"}`). -/
def month_names (m : Nat) : String :=
  match m with
  | 1 => "Januar" | 2 => "Februar" | 3 => "März" | 4 => "April"
  | 5 => "Mai" | 6 => "Juni" | 7 => "Juli" | 8 => "August"
  | 9 => "September" | 10 => "Oktober" | 11 => "November" | 12 => "Dezember"
  | _ => ""

/-- The month-name → two-digit-number table (`month_to_num.get(...)`):
`none` for anything outside the twelve German month names. -/
def month_to_num (s : String) : Option String :=
  match s with
  | "Januar" => some "01" | "Februar" => some "02" | "März" => some "03"
  | "April" => some "04" | "Mai" => some "05" | "Juni" => some "06"
  | "Juli" => some "07" | "August" => some "08" | "September" => some "09"
  | "Oktober" => some "10" | "November" => some "11" | "Dezember" => some "12"
  | _ => none

/-- Whether the second list is an initial segment of the first. -/
def startsWithChars : List Char → List Char → Bool
  | _, [] => true
  | [], _ :: _ => false
  | c :: cs, p :: ps => c == p && startsWithChars cs ps

/-- Whether a pattern occurs somewhere in a character list (true everywhere
for the empty pattern, as in Python). -/
def containsChars : List Char → List Char → Bool
  | cs, pat =>
      if startsWithChars cs pat then true
      else
        match cs with
        | [] => false
        | _ :: rest => containsChars rest pat

/-- Python's substring test `pat in s`. -/
def strContains (s pat : String) : Bool :=
  containsChars s.data pat.data

/-- Update an association list at a key: replace the first binding in place,
or append a fresh binding at the end — exactly how assignment to a Python
`dict` behaves (insertion order preserved, existing key keeps its slot). -/
def updAssoc {α : Type} (k : String) (v : α) : List (String × α) → List (String × α)
  | [] => [(k, v)]
  | (k₀, v₀) :: rest =>
      if k₀ = k then (k₀, v) :: rest else (k₀, v₀) :: updAssoc k v rest

/-- Lexicographic comparison of character lists by code point — Python's
string ordering. -/
def charListLe : List Char → List Char → Bool
  | [], _ => true
  | _ :: _, [] => false
  | c :: cs, d :: ds =>
      if c.toNat < d.toNat then true
      else if d.toNat < c.toNat then false
      else charListLe cs ds

/-- Python's `s <= t` on strings. -/
def strLe (s t : String) : Bool :=
  charListLe s.data t.data

/-- Insert a string into a sorted list (used to model the sorted group keys
of `df.groupby`). -/
def insertSortedStr (s : String) : List String → List String
  | [] => [s]
  | t :: ts => if strLe s t then s :: t :: ts else t :: insertSortedStr s ts

/-- The distinct keys of `df.groupby(col)`, in Python's sorted order. -/
def groupKeys (keys : List String) : List String :=
  keys.eraseDups.foldr insertSortedStr []

/-- One contribution entry as written by `transfer_to_member_database`
(the per-month JSON object). -/
structure Contribution where
  amount : ℚ
  date : String
  transaction_id : String
  source : String
  purpose : String
  details : String
  month_name : String
  zkb_reference : String
deriving Repr, DecidableEq

/-- A member record of `k-lab_member_database.json`: display name,
membership class (`"Aktiv"`/`"Passiv"`/`"Inaktiv"`), introduction-course
flag, and the contribution ledger keyed year → month. -/
structure Member where
  name : String
  mitgliedsform : String
  einfuehrungskurs : Bool
  contributions : List (String × List (String × Contribution))
deriving Repr, DecidableEq

/-- The member database: member id → member record, in JSON order. -/
abbrev MemberDB := List (String × Member)

/-- The mapping store `categories.json`: trimmed details text → member
name, in insertion order. -/
abbrev Mappings := List (String × String)

/-- One processed candidate transaction — a row of the data frame built by
`parse_csv_file` (`Datum` may be NaT, hence `Option Date`). -/
structure Row where
  datum : Option Date
  details : String
  amount : ℚ
  zahlungszweck : String
  mitglied : String
  monat : String
  bemerkungen : String
  zkbReferenz : String
deriving Repr, DecidableEq

/-- One raw CSV row of the bank statement (cells may be missing = NaN). -/
structure RawRow where
  datum : Option String
  gutschrift : Option String
  zahlungszweck : Option String
  details : Option String
  zkbReferenz : Option String
deriving Repr, DecidableEq

/-- The credit filter `df['Gutschrift CHF'].notna() & (df['Gutschrift CHF'] != '')`. -/
def hasCredit (r : RawRow) : Bool :=
  match r.gutschrift with
  | some s => s ≠ ""
  | none => false

/-- The per-row body of `_add_smart_month_defaults`: skip NaT dates;
day-of-month ≤ 7 blanks the month, otherwise the month defaults to the
transaction's own calendar month. -/
def smartMonthDefault (r : Row) : Row :=
  match r.datum with
  | none => r
  | some d =>
      if d.day ≤ 7 then { r with monat := "" }
      else { r with monat := month_names d.month }

/-- `_add_smart_month_defaults`: the row-wise loop over the data frame. -/
def add_smart_month_defaults (rows : List Row) : List Row :=
  rows.map smartMonthDefault

/-- The per-row body of `auto_assign_members`: rows with a member already
assigned are skipped; otherwise the first mapping whose key is a
case-insensitive substring of the row's details is applied. -/
def autoAssignRow (mappings : Mappings) (r : Row) : Row :=
  if r.mitglied ≠ "" then r
  else
    let details := strTrim (strLower r.details)
    match mappings.find? (fun p => strContains details (strLower p.1)) with
    | some p => { r with mitglied := p.2 }
    | none => r

/-- `auto_assign_members`: the row-wise loop over the data frame. -/
def auto_assign_members (mappings : Mappings) (rows : List Row) : List Row :=
  rows.map (autoAssignRow mappings)

/-- Build the processed row of `parse_csv_file` from a raw row and its
parsed amount: date re-parsed with the exact format, fixed default purpose
`"Mitgliederbeitrag"`, member and month left for the user, the bank's own
purpose text carried as a remark. -/
def mkProcessedRow (raw : RawRow) (amount : ℚ) : Row :=
  { datum := raw.datum.bind parseDateExact
    details := (raw.details).getD ""
    amount := amount
    zahlungszweck := "Mitgliederbeitrag"
    mitglied := ""
    monat := ""
    bemerkungen := (raw.zahlungszweck).getD ""
    zkbReferenz := (raw.zkbReferenz).getD "" }

/-- `parse_csv_file`: filter to credit rows (`none` when no credit rows at
all — the user-facing "Keine Gutschriften" path), parse amounts and drop
non-positive or unparseable ones, then apply smart month defaults and
member auto-assignment. -/
def parse_csv_file (raws : List RawRow) (mappings : Mappings) :
    Option (List Row) :=
  if (raws.filter hasCredit).isEmpty then none
  else
    some (auto_assign_members mappings (add_smart_month_defaults
      ((raws.filter hasCredit).filterMap (fun raw =>
        match parseDecimal ((raw.gutschrift).getD "") with
        | some a => if 0 < a then some (mkProcessedRow raw a) else none
        | none => none))))

/-- Resolve a member name to a member id by exact name match, scanning the
database in order (the `for mid, member_data in ... break` loop). -/
def findMemberId (db : MemberDB) (name : String) : Option String :=
  (db.find? (fun p => p.2.name == name)).map (·.1)

/-- One iteration of the loop of `_check_existing_entries`: strip the
member, month and purpose fields, resolve the member (unknown members are
skipped), map the month name to its two-digit number (unrecognized labels
are skipped), and append a conflict when the member's contributions
**under the hard-coded year key "2025"** already contain that month. -/
def checkRowStep (db : MemberDB) (conflicts : List String) (r : Row) :
    List String :=
  match findMemberId db (strTrim r.mitglied) with
  | none => conflicts
  | some mid =>
      match month_to_num (strTrim r.monat) with
      | none => conflicts
      | some month_num =>
          if (List.lookup month_num
              (((db.lookup mid).map Member.contributions).bind
                (fun cs => cs.lookup "2025") |>.getD [])).isSome then
            conflicts ++
              [strTrim r.mitglied ++ " - " ++ strTrim r.monat ++ " (" ++
                strTrim r.zahlungszweck ++ ")"]
          else conflicts

/-- `_check_existing_entries`: the conflict loop over the batch rows. -/
def check_existing_entries (db : MemberDB) (rows : List Row) : List String :=
  rows.foldl (checkRowStep db) []

/-- The outcome of `validate_import_data`, one constructor per early
return of the Python function (`ok` is the final success return). -/
inductive ValidationResult where
  | missingZweck (rows : List Nat)
  | missingMember (rows : List Nat)
  | missingMonth (rows : List Nat)
  | duplicateInBatch (groups : List ((String × String × String) × Nat))
  | alreadyRecorded (conflicts : List String)
  | ok
deriving Repr, DecidableEq

/-- Positions of the rows where a field is missing
(`df[mask].index.tolist()`, with list positions as the index). -/
def missingIdx (p : Row → Bool) (rows : List Row) : List Nat :=
  (rows.enum.filter (fun x => p x.2)).map (·.1)

/-- The grouping key of the batch-duplication check. -/
def tripleOf (r : Row) : String × String × String :=
  (r.mitglied, r.monat, r.zahlungszweck)

/-- The `(Mitglied, Monat, Zahlungszweck)` groups of size > 1
(`df.groupby([...]).size()` filtered to counts above 1; groups are listed
by first occurrence rather than pandas' sorted key order — only the
reported order differs). -/
def dupGroups (rows : List Row) : List ((String × String × String) × Nat) :=
  ((rows.map tripleOf).eraseDups.map
    (fun t => (t, rows.countP (fun r => tripleOf r == t)))).filter
    (fun g => g.2 > 1)

/-- `validate_import_data`: missing purpose, then missing member, then
missing month, then batch-internal duplicates, then conflicts against the
ledger; the first failing check returns immediately. -/
def validate_import_data (db : MemberDB) (rows : List Row) : ValidationResult :=
  if !(missingIdx (fun r => r.zahlungszweck == "") rows).isEmpty then
    .missingZweck (missingIdx (fun r => r.zahlungszweck == "") rows)
  else if !(missingIdx (fun r => r.mitglied == "") rows).isEmpty then
    .missingMember (missingIdx (fun r => r.mitglied == "") rows)
  else if !(missingIdx (fun r => r.monat == "") rows).isEmpty then
    .missingMonth (missingIdx (fun r => r.monat == "") rows)
  else if !(dupGroups rows).isEmpty then
    .duplicateInBatch (dupGroups rows)
  else if !(check_existing_entries db rows).isEmpty then
    .alreadyRecorded (check_existing_entries db rows)
  else .ok

/-- `add_member_mapping`: trim the details key; if it is non-empty and not
yet present, append the new binding (Python dict insertion) and report
success; otherwise leave the store unchanged. -/
def add_member_mapping (mappings : Mappings) (details member_name : String) :
    Mappings × Bool :=
  let key := strTrim details
  if key ≠ "" && (mappings.lookup key).isNone then
    (mappings ++ [(key, member_name)], true)
  else (mappings, false)

/-- `strftime("%Y-%m-%d")` on a transaction date. -/
def dateToIso (d : Date) : String :=
  toString d.year ++ "-" ++ pad2 d.month ++ "-" ++ pad2 d.day

/-- Update one member record in place. -/
def mapMember (db : MemberDB) (mid : String) (f : Member → Member) : MemberDB :=
  db.map (fun p => bif p.1 == mid then (p.1, f p.2) else p)

/-- Write a contribution record at (year, month), creating the year bucket
when absent (the `if year not in ... contributions[year] = {}` lines) and
silently overwriting any record already stored at that month key. -/
def setContribution (m : Member) (year month : String) (rec : Contribution) :
    Member :=
  let cur := (m.contributions.lookup year).getD []
  { m with contributions := updAssoc year (updAssoc month rec cur) m.contributions }

/-- The per-transaction body of the inner loop of
`transfer_to_member_database`.  `row['Datum'].strftime(...)` raises on NaT
(the exception is caught at function level and the whole transfer fails),
hence `none` for a missing date.  The month key is the selected month
name's number, falling back to the transaction date's own two-digit month
for unrecognized labels. -/
def processRow (ts : Nat) (mid : String) (db : MemberDB) (r : Row) :
    Option MemberDB :=
  match r.datum with
  | none => none
  | some d =>
      let month_name := strTrim r.monat
      let year := toString d.year
      let purpose := strTrim r.zahlungszweck
      let month := (month_to_num month_name).getD (pad2 d.month)
      let zkb := strTrim r.zkbReferenz
      let txid :=
        if zkb ≠ "" then zkb
        else "CSV_" ++ mid ++ "_" ++ year ++ month ++ "_" ++ toString ts
      let entry : Contribution :=
        { amount := r.amount
          date := dateToIso d
          transaction_id := txid
          source := "csv_import"
          purpose := purpose
          details := strTrim r.details
          month_name := month_name
          zkb_reference := zkb }
      some (mapMember db mid (fun m => setContribution m year month entry))

/-- One member group of `transfer_to_member_database`: unknown members are
skipped with a warning (`continue`); otherwise every transaction of the
group is written, and **after the row loop** — using the loop variables of
the group's *last* row — the introduction-course flag is set when that last
row's purpose is `"Einführungskurs"`, and that last row's details text is
offered to the mapping store. -/
def processGroup (ts : Nat) (st : MemberDB × Mappings) (name : String)
    (group : List Row) : Option (MemberDB × Mappings) :=
  match findMemberId st.1 name with
  | none => some st
  | some mid =>
      match group.foldlM (processRow ts mid) st.1 with
      | none => none
      | some db₁ =>
          match group.getLast? with
          | none => some (db₁, st.2)
          | some last =>
              let db₂ :=
                if strTrim last.zahlungszweck == "Einführungskurs" then
                  mapMember db₁ mid (fun m => { m with einfuehrungskurs := true })
                else db₁
              let m₂ := (add_member_mapping st.2 (strTrim last.details) (strTrim name)).1
              some (db₂, m₂)

/-- `transfer_to_member_database`: the batch grouped by the `Mitglied`
column (pandas group keys in sorted order, rows of a group in batch
order), processed group by group; an exception anywhere (a NaT date)
aborts the whole transfer before anything is saved, modelled as `none`.
`ts` stands for the `datetime.now().timestamp()` used in synthesized
transaction ids. -/
def transfer_to_member_database (db : MemberDB) (mappings : Mappings)
    (rows : List Row) (ts : Nat) : Option (MemberDB × Mappings) :=
  (groupKeys (rows.map (·.mitglied))).foldlM
    (fun st name => processGroup ts st name (rows.filter (·.mitglied == name)))
    (db, mappings)

/-- `calculate_outstanding_payments` of `payment_reminder_export.py`:
monthly amount from the membership class (Aktiv 50, Passiv 25, otherwise
0 with an immediate empty result); paid months are the month keys of the
member's contributions **under the hard-coded year key "2025"**; every
month from 1 up to `currentMonth` (the `datetime.now().month` argument)
without such a key is reported outstanding at the monthly amount. -/
def calculate_outstanding_payments (member : Member) (currentMonth : Nat) :
    List String × ℚ :=
  let monthly : ℚ :=
    if member.mitgliedsform == "Aktiv" then 50
    else if member.mitgliedsform == "Passiv" then 25
    else 0
  if monthly = 0 then ([], 0)
  else
    let contributions := (member.contributions.lookup "2025").getD []
    let paid := contributions.map (·.1)
    (List.range' 1 currentMonth).foldl
      (fun acc m =>
        if paid.contains (pad2 m) then acc
        else (acc.1 ++ [pad2 m], acc.2 + monthly))
      ([], 0)

/-- Modelled from the spec: the outstanding-summary query as the spec
states it, with unpaid months determined against the **current year**
("return ... the list of unpaid periods up to the current month").  Used
only to compare the source's behaviour against the claim's words. -/
def outstandingPerSpec (member : Member) (currentYear : String)
    (currentMonth : Nat) : List String × ℚ :=
  let monthly : ℚ :=
    if member.mitgliedsform == "Aktiv" then 50
    else if member.mitgliedsform == "Passiv" then 25
    else 0
  if monthly = 0 then ([], 0)
  else
    let contributions := (member.contributions.lookup currentYear).getD []
    let paid := contributions.map (·.1)
    (List.range' 1 currentMonth).foldl
      (fun acc m =>
        if paid.contains (pad2 m) then acc
        else (acc.1 ++ [pad2 m], acc.2 + monthly))
      ([], 0)

/-- Look up one contribution record at (member id, year, month). -/
def contribLookup (db : MemberDB) (mid year month : String) : Option Contribution :=
  (((db.lookup mid).map Member.contributions).bind (fun cs => cs.lookup year)).bind
    (fun ms => ms.lookup month)

/-! ### Concrete fixtures used by the individual results -/

/-- An active member with an empty contribution ledger. -/
def janeActive : Member :=
  { name := "Jane Doe", mitgliedsform := "Aktiv", einfuehrungskurs := false,
    contributions := [] }

/-- A contribution recorded for January 2026. -/
def janContrib2026 : Contribution :=
  { amount := 50, date := "2026-01-15", transaction_id := "Z0",
    source := "csv_import", purpose := "Mitgliederbeitrag",
    details := "Jane pay", month_name := "Januar", zkb_reference := "Z0" }

/-- Jane with a January-2026 contribution already on the ledger. -/
def jane2026 : Member :=
  { janeActive with contributions := [("2026", [("01", janContrib2026)])] }

/-- A database holding only Jane with no contributions. -/
def dbJane : MemberDB := [("1", janeActive)]

/-- A database holding only Jane, with her January-2026 contribution. -/
def dbJane2026 : MemberDB := [("1", jane2026)]

/-- A batch row dated 15.01.2026, assigned to Jane and January — exactly
the transaction already recorded in `dbJane2026`. -/
def rowJan2026 : Row :=
  { datum := some ⟨15, 1, 2026⟩, details := "Jane pay", amount := 50,
    zahlungszweck := "Mitgliederbeitrag", mitglied := "Jane Doe",
    monat := "Januar", bemerkungen := "", zkbReferenz := "Z0" }

/-- First row of a two-row batch for Jane: an introduction-course payment
with details text "A". -/
def rowKursJan : Row :=
  { datum := some ⟨10, 1, 2025⟩, details := "A", amount := 50,
    zahlungszweck := "Einführungskurs", mitglied := "Jane Doe",
    monat := "Januar", bemerkungen := "", zkbReferenz := "RA" }

/-- Second (and last) row of the batch: a membership fee with details
text "B". -/
def rowBeitragFeb : Row :=
  { datum := some ⟨10, 2, 2025⟩, details := "B", amount := 50,
    zahlungszweck := "Mitgliederbeitrag", mitglied := "Jane Doe",
    monat := "Februar", bemerkungen := "", zkbReferenz := "RB" }

/-! ### C1 — ledger conflict ignores the transaction's year -/

/-- Claim C1: the conflict check is claimed to match the year against the
transaction's own date year, rejecting a re-run for every year.  The code
hard-codes the year key "2025" instead: here the ledger already holds Jane
Doe's January-2026 contribution and the batch row is dated 15.01.2026 and
assigned to January, yet `_check_existing_entries` reports no conflict and
validation succeeds, so the already-committed batch is not rejected. -/
theorem check_existing_entries_misses_non2025_conflict :
    contribLookup dbJane2026 "1" "2026" "01" = some janContrib2026 ∧
    rowJan2026.datum = some ⟨15, 1, 2026⟩ ∧
    strTrim rowJan2026.mitglied = "Jane Doe" ∧
    strTrim rowJan2026.monat = "Januar" ∧
    check_existing_entries dbJane2026 [rowJan2026] = [] ∧
    validate_import_data dbJane2026 [rowJan2026] = .ok := by decide

/-! ### C3 — the mapping store learns only the last row of a member group -/

/-- Claim C3: every committed transaction with an unmapped, non-empty
details key is claimed to add a mapping entry.  The mapping-add call sits
after the row loop, on the loop's last row: committing the two-row batch
for Jane writes both contribution records, yet only the last row's details
"B" gains a mapping — the first row's details "A" is never added. -/
theorem transfer_maps_only_last_row_details :
    (transfer_to_member_database dbJane [] [rowKursJan, rowBeitragFeb] 7).map
        (fun st =>
          ((contribLookup st.1 "1" "2025" "01").isSome,
           (contribLookup st.1 "1" "2025" "02").isSome,
           st.2.lookup "A", st.2.lookup "B")) =
      some (true, true, none, some "Jane Doe") := by decide

/-! ### C4 — the introduction-course flag follows only the last row -/

/-- Claim C4: a committed introduction-course transaction is claimed to
set the member's flag.  The flag update sits after the row loop, testing
the loop's last `purpose`: committing the batch whose *first* row is an
introduction-course payment (its record is written, with purpose
"Einführungskurs") leaves `einfuehrungskurs` false, because the last row
is an ordinary membership fee. -/
theorem transfer_sets_kurs_flag_only_from_last_row :
    strTrim rowKursJan.zahlungszweck = "Einführungskurs" ∧
    (transfer_to_member_database dbJane [] [rowKursJan, rowBeitragFeb] 7).map
        (fun st =>
          ((contribLookup st.1 "1" "2025" "01").map Contribution.purpose,
           (st.1.lookup "1").map Member.einfuehrungskurs)) =
      some (some "Einführungskurs", some false) := by decide

/-! ### C5 — smart month defaults at the day-of-month boundary -/

/-- Claim C5: for a candidate transaction with a valid date, the
month-default step blanks the month assignment when the day of month is
at most 7, and otherwise sets it to the name of the transaction date's
own calendar month; the date, member and amount are untouched. -/
theorem smart_month_defaults_day_boundary (rows : List Row) (i : Nat)
    (r : Row) (d : Date) (hr : rows[i]? = some r) (hd : r.datum = some d) :
    ∃ r₂, (add_smart_month_defaults rows)[i]? = some r₂ ∧
      r₂.monat = (if d.day ≤ 7 then "" else month_names d.month) ∧
      r₂.datum = r.datum ∧ r₂.mitglied = r.mitglied ∧ r₂.amount = r.amount := by
  refine ⟨smartMonthDefault r, ?_, ?_, ?_, ?_, ?_⟩
  · simp [add_smart_month_defaults, List.getElem?_map, hr]
  all_goals simp only [smartMonthDefault, hd]; split <;> simp [hd]

/-- A candidate transaction dated on the 7th of March. -/
def rowDay7 : Row :=
  { datum := some ⟨7, 3, 2025⟩, details := "x", amount := 50,
    zahlungszweck := "Mitgliederbeitrag", mitglied := "", monat := "",
    bemerkungen := "", zkbReferenz := "" }

/-- A candidate transaction dated on the 8th of March. -/
def rowDay8 : Row :=
  { rowDay7 with datum := some ⟨8, 3, 2025⟩ }

/-- Witness for C5 at both boundary days: the 7th stays blank, the 8th
defaults to the date's own month ("März"). -/
theorem smart_month_defaults_day_boundary_witness :
    (∃ r₂, (add_smart_month_defaults [rowDay7, rowDay8])[0]? = some r₂ ∧
        r₂.monat = "" ∧ r₂.datum = rowDay7.datum ∧
        r₂.mitglied = rowDay7.mitglied ∧ r₂.amount = rowDay7.amount) ∧
    (∃ r₂, (add_smart_month_defaults [rowDay7, rowDay8])[1]? = some r₂ ∧
        r₂.monat = "März" ∧ r₂.datum = rowDay8.datum ∧
        r₂.mitglied = rowDay8.mitglied ∧ r₂.amount = rowDay8.amount) :=
  ⟨smart_month_defaults_day_boundary [rowDay7, rowDay8] 0 rowDay7
      ⟨7, 3, 2025⟩ (by decide) (by decide),
   smart_month_defaults_day_boundary [rowDay7, rowDay8] 1 rowDay8
      ⟨8, 3, 2025⟩ (by decide) (by decide)⟩

/-! ### C9 — the conflict check silently skips unresolvable rows -/

/-- Claim C9: a batch row whose (stripped) member name matches nobody in
the member directory, or whose (stripped) month label is not one of the
twelve German month names, can never contribute a ledger conflict; a
batch made only of such rows passes the conflict check whatever the
ledger holds. -/
theorem conflict_check_skips_unresolved_rows (db : MemberDB)
    (rows : List Row)
    (h : ∀ r ∈ rows, findMemberId db (strTrim r.mitglied) = none ∨
        month_to_num (strTrim r.monat) = none) :
    check_existing_entries db rows = [] := by
  unfold check_existing_entries
  induction rows with
  | nil => rfl
  | cons r rs ih =>
      have hr := h r (List.mem_cons_self r rs)
      have hrs := fun x hx => h x (List.mem_cons_of_mem r hx)
      rcases hr with hm | hmo
      · simp only [List.foldl_cons, checkRowStep, hm]
        exact ih hrs
      · cases hfind : findMemberId db (strTrim r.mitglied) with
        | none =>
            simp only [List.foldl_cons, checkRowStep, hfind]
            exact ih hrs
        | some mid =>
            simp only [List.foldl_cons, checkRowStep, hfind, hmo]
            exact ih hrs

/-- A contribution recorded for January 2025 (the year the conflict check
actually reads). -/
def janContrib2025 : Contribution :=
  { amount := 50, date := "2025-01-10", transaction_id := "Z5",
    source := "csv_import", purpose := "Mitgliederbeitrag",
    details := "Jane pay", month_name := "Januar", zkb_reference := "Z5" }

/-- Jane with a January-2025 contribution already on the ledger. -/
def jane2025 : Member :=
  { janeActive with contributions := [("2025", [("01", janContrib2025)])] }

/-- A database holding only Jane, with her January-2025 contribution. -/
def dbJane2025 : MemberDB := [("1", jane2025)]

/-- A batch row naming a member absent from the directory. -/
def rowUnknownMember : Row :=
  { datum := some ⟨10, 1, 2025⟩, details := "who", amount := 50,
    zahlungszweck := "Mitgliederbeitrag", mitglied := "Nemo",
    monat := "Januar", bemerkungen := "", zkbReferenz := "" }

/-- A batch row for Jane whose month label is not a German month name. -/
def rowBadMonth : Row :=
  { datum := some ⟨10, 1, 2025⟩, details := "jane", amount := 50,
    zahlungszweck := "Mitgliederbeitrag", mitglied := "Jane Doe",
    monat := "January", bemerkungen := "", zkbReferenz := "" }

/-- Witness for C9: against a ledger that already holds Jane's
January-2025 record, a batch of one unknown-member row and one
unrecognized-month row produces no conflict at all. -/
theorem conflict_check_skips_unresolved_rows_witness :
    (∀ r ∈ [rowUnknownMember, rowBadMonth],
        findMemberId dbJane2025 (strTrim r.mitglied) = none ∨
        month_to_num (strTrim r.monat) = none) ∧
    check_existing_entries dbJane2025 [rowUnknownMember, rowBadMonth] = [] :=
  ⟨by decide,
   conflict_check_skips_unresolved_rows dbJane2025
     [rowUnknownMember, rowBadMonth] (by decide)⟩

/-! ### C10 — commit is total over month labels -/

/-- Looking up an absent key after an in-place update finds the new value. -/
theorem lookup_updAssoc_self {α : Type} (k : String) (v : α)
    (l : List (String × α)) : (updAssoc k v l).lookup k = some v := by
  induction l with
  | nil => simp [updAssoc, List.lookup]
  | cons p rest ih =>
      obtain ⟨k₀, v₀⟩ := p
      by_cases hk : k₀ = k
      · simp [updAssoc, hk, List.lookup]
      · simp only [updAssoc, if_neg hk, List.lookup]
        have hb : (k == k₀) = false := by
          simp only [beq_eq_false_iff_ne, ne_eq]
          exact fun h => hk h.symm
        rw [hb]
        exact ih

/-- In a database with distinct member ids (a JSON object cannot repeat a
key), membership determines the lookup result. -/
theorem lookup_of_mem_nodupKeys (db : MemberDB) (k : String) (v : Member)
    (hnd : (db.map Prod.fst).Nodup) (hmem : (k, v) ∈ db) :
    db.lookup k = some v := by
  induction db with
  | nil => simp at hmem
  | cons p rest ih =>
      obtain ⟨k₀, v₀⟩ := p
      simp only [List.map_cons, List.nodup_cons] at hnd
      rcases List.mem_cons.mp hmem with heq | hmem₂
      · cases heq
        simp [List.lookup]
      · have hk : k ≠ k₀ := by
          intro h
          subst h
          exact hnd.1 (List.mem_map_of_mem Prod.fst hmem₂)
        simp only [List.lookup]
        have hb : (k == k₀) = false := by
          simp only [beq_eq_false_iff_ne, ne_eq]
          exact hk
        rw [hb]
        exact ih hnd.2 hmem₂

/-- Updating a member in place updates what lookup at its id returns. -/
theorem lookup_mapMember (db : MemberDB) (mid : String) (f : Member → Member)
    (m : Member) (h : db.lookup mid = some m) :
    (mapMember db mid f).lookup mid = some (f m) := by
  induction db with
  | nil => simp [List.lookup] at h
  | cons p rest ih =>
      obtain ⟨k, v⟩ := p
      by_cases hk : mid = k
      · subst hk
        have hv : v = m := by simpa [List.lookup] using h
        subst hv
        simp [mapMember, List.lookup]
      · have hb : (mid == k) = false := by
          simp only [beq_eq_false_iff_ne, ne_eq]
          exact hk
        have hb2 : (k == mid) = false := by
          simp only [beq_eq_false_iff_ne, ne_eq]
          exact fun he => hk he.symm
        simp only [List.lookup, hb] at h
        simp only [mapMember, List.map_cons, hb2, Bool.cond_false, List.lookup, hb]
        exact ih h

/-- A successful member-name resolution names an entry of the database
whose display name matches. -/
theorem findMemberId_some (db : MemberDB) (name mid : String)
    (h : findMemberId db name = some mid) :
    ∃ m, (mid, m) ∈ db ∧ m.name = name := by
  unfold findMemberId at h
  cases hf : db.find? (fun p => p.2.name == name) with
  | none =>
      rw [hf] at h
      exact Option.noConfusion h
  | some pr =>
      rw [hf] at h
      have h2 : pr.1 = mid := Option.some.inj h
      refine ⟨pr.2, ?_, ?_⟩
      · rw [← h2]
        exact List.mem_of_find?_eq_some hf
      · have hp := @List.find?_some _ (fun p => p.2.name == name) pr db hf
        exact eq_of_beq hp

/-- After writing a contribution at (year, month) for a member, the record
is found there. -/
theorem contribLookup_set (db : MemberDB) (mid : String) (m₀ : Member)
    (year month : String) (e : Contribution) (hlook : db.lookup mid = some m₀) :
    contribLookup (mapMember db mid (fun m => setContribution m year month e))
      mid year month = some e := by
  unfold contribLookup
  rw [lookup_mapMember db mid _ m₀ hlook]
  simp only [setContribution, Option.map_some', Option.some_bind]
  rw [lookup_updAssoc_self]
  simp only [Option.some_bind]
  exact lookup_updAssoc_self month e _

/-- Setting the introduction-course flag leaves the contribution ledger
untouched. -/
theorem contribLookup_flag (db : MemberDB) (mid year month : String)
    (m₁ : Member) (h : db.lookup mid = some m₁) :
    contribLookup
        (mapMember db mid (fun m => { m with einfuehrungskurs := true }))
        mid year month = contribLookup db mid year month := by
  unfold contribLookup
  rw [lookup_mapMember db mid _ m₁ h, h]
  simp

/-- Claim C10: commit never fails or skips a row over its month label.
For a resolvable member and a valid transaction date, a singleton batch
whose month label is not one of the twelve German month names is still
committed, and the contribution record lands under the **two-digit month
of the transaction's own date** (with the written amount, date, purpose
and the raw month label preserved on the record). -/
theorem commit_total_over_month_labels (db : MemberDB) (mappings : Mappings)
    (ts : Nat) (r : Row) (d : Date) (mid : String)
    (hnd : (db.map Prod.fst).Nodup)
    (hd : r.datum = some d)
    (hmo : month_to_num (strTrim r.monat) = none)
    (hmid : findMemberId db r.mitglied = some mid) :
    ∃ st, transfer_to_member_database db mappings [r] ts = some st ∧
      ∃ c, contribLookup st.1 mid (toString d.year) (pad2 d.month) = some c ∧
        c.amount = r.amount ∧ c.date = dateToIso d ∧
        c.purpose = strTrim r.zahlungszweck ∧ c.month_name = strTrim r.monat := by
  obtain ⟨m₀, hmem, hname⟩ := findMemberId_some db r.mitglied mid hmid
  have hlook : db.lookup mid = some m₀ := lookup_of_mem_nodupKeys db mid m₀ hnd hmem
  have hfilter : List.filter (fun x => x.mitglied == r.mitglied) [r] = [r] := by simp
  unfold transfer_to_member_database
  simp only [List.map_cons, List.map_nil]
  rw [show groupKeys [r.mitglied] = [r.mitglied] from rfl]
  simp only [List.foldlM_cons, List.foldlM_nil, hfilter]
  simp only [processGroup, hmid]
  simp only [List.foldlM_cons, List.foldlM_nil, processRow, hd]
  simp only [hmo, Option.getD_none]
  rw [show [r].getLast? = some r from rfl]
  simp only [Option.pure_def, Option.bind_eq_bind, Option.some_bind]
  cases hK : strTrim r.zahlungszweck == "Einführungskurs" with
  | false =>
      simp only [hK, Bool.false_eq_true, if_false]
      refine ⟨_, rfl, ?_⟩
      exact ⟨_, contribLookup_set db mid m₀ _ _ _ hlook, rfl, rfl, rfl, rfl⟩
  | true =>
      simp only [hK, if_true]
      refine ⟨_, rfl, ?_⟩
      have h₁ := lookup_mapMember db mid
        (fun m => setContribution m (toString d.year) (pad2 d.month)
          { amount := r.amount, date := dateToIso d,
            transaction_id :=
              if strTrim r.zkbReferenz ≠ "" then strTrim r.zkbReferenz
              else "CSV_" ++ mid ++ "_" ++ toString d.year ++ pad2 d.month ++ "_" ++ toString ts,
            source := "csv_import", purpose := strTrim r.zahlungszweck,
            details := strTrim r.details, month_name := strTrim r.monat,
            zkb_reference := strTrim r.zkbReferenz }) m₀ hlook
      rw [contribLookup_flag _ mid _ _ _ h₁]
      exact ⟨_, contribLookup_set db mid m₀ _ _ _ hlook, rfl, rfl, rfl, rfl⟩

/-- A batch row for Jane whose month label "Avril" is not a German month
name, dated 09.04.2025. -/
def rowOddMonth : Row :=
  { datum := some ⟨9, 4, 2025⟩, details := "jane d", amount := 50,
    zahlungszweck := "Mitgliederbeitrag", mitglied := "Jane Doe",
    monat := "Avril", bemerkungen := "", zkbReferenz := "ZX" }

/-- Witness for C10: committing the "Avril" row writes Jane's record under
year "2025", month "04" — the transaction date's own month. -/
theorem commit_total_over_month_labels_witness :
    month_to_num (strTrim rowOddMonth.monat) = none ∧
    ∃ st, transfer_to_member_database dbJane [] [rowOddMonth] 3 = some st ∧
      ∃ c, contribLookup st.1 "1" "2025" "04" = some c ∧
        c.amount = rowOddMonth.amount ∧ c.date = dateToIso ⟨9, 4, 2025⟩ ∧
        c.purpose = strTrim rowOddMonth.zahlungszweck ∧
        c.month_name = strTrim rowOddMonth.monat :=
  ⟨by decide,
   commit_total_over_month_labels dbJane [] 3 rowOddMonth ⟨9, 4, 2025⟩ "1"
     (by decide) (by decide) (by decide) (by decide)⟩

/-! ### Parser lemmas shared by C2 and C6 -/

/-- Defaulting the month never touches a row's date or amount. -/
theorem smartMonthDefault_preserves (r : Row) :
    (smartMonthDefault r).datum = r.datum ∧
    (smartMonthDefault r).amount = r.amount := by
  unfold smartMonthDefault
  cases hd : r.datum with
  | none => simp [hd]
  | some d =>
      simp only [hd]
      split <;> simp [hd]

/-- Auto-assigning a member never touches a row's date or amount. -/
theorem autoAssignRow_preserves (mp : Mappings) (r : Row) :
    (autoAssignRow mp r).datum = r.datum ∧
    (autoAssignRow mp r).amount = r.amount := by
  unfold autoAssignRow
  split
  · simp
  · cases hf : List.find?
        (fun p => strContains (strTrim (strLower r.details)) (strLower p.1)) mp with
    | none => simp [hf]
    | some p => simp [hf]

/-- Every row of the parser's output stems from a raw row that passed the
credit filter with a positive parsed amount; the row carries that amount
and the (possibly failed) exact-format parse of the raw date. -/
theorem mem_parse_output (raws : List RawRow) (mappings : Mappings)
    (out : List Row) (h : parse_csv_file raws mappings = some out)
    (r : Row) (hr : r ∈ out) :
    ∃ raw ∈ raws, hasCredit raw ∧
      ∃ a, parseDecimal ((raw.gutschrift).getD "") = some a ∧ 0 < a ∧
        r.amount = a ∧ r.datum = (raw.datum).bind parseDateExact := by
  unfold parse_csv_file at h
  split at h
  · exact absurd h (by simp)
  · injection h with h
    subst h
    unfold auto_assign_members at hr
    rw [List.mem_map] at hr
    obtain ⟨r₁, hr₁, hr₁e⟩ := hr
    unfold add_smart_month_defaults at hr₁
    rw [List.mem_map] at hr₁
    obtain ⟨r₀, hr₀, hr₀e⟩ := hr₁
    rw [List.mem_filterMap] at hr₀
    obtain ⟨raw, hraw, hf⟩ := hr₀
    rw [List.mem_filter] at hraw
    refine ⟨raw, hraw.1, hraw.2, ?_⟩
    cases hp : parseDecimal ((raw.gutschrift).getD "") with
    | none => rw [hp] at hf; exact absurd hf (by simp)
    | some a =>
        rw [hp] at hf
        by_cases ha : 0 < a
        · simp only [ha, if_true] at hf
          injection hf with hf
          refine ⟨a, rfl, ha, ?_, ?_⟩
          · rw [← hr₁e, ← hr₀e, ← hf]
            rw [(autoAssignRow_preserves mappings _).2,
              (smartMonthDefault_preserves _).2]
            rfl
          · rw [← hr₁e, ← hr₀e, ← hf]
            rw [(autoAssignRow_preserves mappings _).1,
              (smartMonthDefault_preserves _).1]
            rfl
        · simp only [ha, if_false] at hf
          exact absurd hf (by simp)

/-- Conversely, every raw row that passes the credit filter with a
positive parsed amount yields an output row — whatever its date parses
to. -/
theorem parse_output_complete (raws : List RawRow) (mappings : Mappings)
    (out : List Row) (h : parse_csv_file raws mappings = some out)
    (raw : RawRow) (hmem : raw ∈ raws) (hc : hasCredit raw) (a : ℚ)
    (hp : parseDecimal ((raw.gutschrift).getD "") = some a) (ha : 0 < a) :
    ∃ r ∈ out, r.amount = a ∧ r.datum = (raw.datum).bind parseDateExact := by
  unfold parse_csv_file at h
  split at h
  · exact absurd h (by simp)
  · injection h with h
    subst h
    refine ⟨autoAssignRow mappings (smartMonthDefault (mkProcessedRow raw a)),
      ?_, ?_, ?_⟩
    · unfold auto_assign_members
      rw [List.mem_map]
      refine ⟨smartMonthDefault (mkProcessedRow raw a), ?_, rfl⟩
      unfold add_smart_month_defaults
      rw [List.mem_map]
      refine ⟨mkProcessedRow raw a, ?_, rfl⟩
      rw [List.mem_filterMap]
      refine ⟨raw, List.mem_filter.mpr ⟨hmem, hc⟩, ?_⟩
      rw [hp]
      simp [ha]
    · rw [(autoAssignRow_preserves mappings _).2,
        (smartMonthDefault_preserves _).2]
      rfl
    · rw [(autoAssignRow_preserves mappings _).1,
        (smartMonthDefault_preserves _).1]
      rfl

/-! ### C2 — unparseable dates are NOT dropped -/

/-- A raw statement row whose date does not parse in `%d.%m.%Y` but whose
credit amount is a valid positive decimal. -/
def rawBadDate : RawRow :=
  { datum := some "not-a-date", gutschrift := some "50",
    zahlungszweck := some "Abo", details := some "jane",
    zkbReferenz := some "Z9" }

/-- The row the parser produces for `rawBadDate`: retained, with an empty
(NaT) date. -/
def parsedBadDate : Row :=
  { datum := none, details := "jane", amount := 50,
    zahlungszweck := "Mitgliederbeitrag", mitglied := "", monat := "",
    bemerkungen := "Abo", zkbReferenz := "Z9" }

/-- Claim C2 counterexample: the claim says a row with an unparseable date
never appears in the parser's output.  In the code only the amount filter
drops rows: the date is converted with `errors="coerce"` and the
amount-only filter `processed_df['Amount'].notna() & > 0` keeps the row,
so `rawBadDate` appears in the output with a NaT date. -/
theorem parser_keeps_unparseable_date_row :
    parseDateExact "not-a-date" = none ∧
    parse_csv_file [rawBadDate] [] = some [parsedBadDate] := by decide

/-- Claim C2 as amended: the parser retains or drops rows solely by the
credit-amount rule; the date field of each retained row is the result of
the exact `%d.%m.%Y` parse of its raw date — `none` when unparseable —
and a credit row with a positive amount is retained even when its date
does not parse. -/
theorem parser_retains_rows_regardless_of_date (raws : List RawRow)
    (mappings : Mappings) (out : List Row)
    (h : parse_csv_file raws mappings = some out) :
    (∀ r ∈ out, ∃ raw ∈ raws, hasCredit raw ∧
        r.datum = (raw.datum).bind parseDateExact) ∧
    (∀ raw ∈ raws, hasCredit raw →
      ∀ a, parseDecimal ((raw.gutschrift).getD "") = some a → 0 < a →
        ∃ r ∈ out, r.datum = (raw.datum).bind parseDateExact ∧ r.amount = a) := by
  constructor
  · intro r hr
    obtain ⟨raw, hraw, hc, a, hp, ha, hamt, hdat⟩ :=
      mem_parse_output raws mappings out h r hr
    exact ⟨raw, hraw, hc, hdat⟩
  · intro raw hmem hc a hp ha
    obtain ⟨r, hr, hamt, hdat⟩ :=
      parse_output_complete raws mappings out h raw hmem hc a hp ha
    exact ⟨r, hr, hdat, hamt⟩

/-- Witness for the amended C2 at the concrete bad-date input. -/
theorem parser_retains_rows_regardless_of_date_witness :
    (∀ r ∈ [parsedBadDate], ∃ raw ∈ [rawBadDate], hasCredit raw ∧
        r.datum = (raw.datum).bind parseDateExact) ∧
    (∀ raw ∈ [rawBadDate], hasCredit raw →
      ∀ a, parseDecimal ((raw.gutschrift).getD "") = some a → 0 < a →
        ∃ r ∈ [parsedBadDate], r.datum = (raw.datum).bind parseDateExact ∧
          r.amount = a) :=
  parser_retains_rows_regardless_of_date [rawBadDate] [] [parsedBadDate]
    (by decide)

/-! ### C6 — only positive, parseable credit amounts survive -/

/-- Claim C6: every row of the parser's output has a strictly positive
amount, obtained by successfully parsing the non-empty credit field of an
input row — so a row whose credit field is missing, empty, unparseable or
non-positive never appears. -/
theorem parser_output_amounts_positive (raws : List RawRow)
    (mappings : Mappings) (out : List Row)
    (h : parse_csv_file raws mappings = some out) :
    ∀ r ∈ out, 0 < r.amount ∧
      ∃ raw ∈ raws, hasCredit raw ∧
        parseDecimal ((raw.gutschrift).getD "") = some r.amount := by
  intro r hr
  obtain ⟨raw, hraw, hc, a, hp, ha, hamt, _⟩ :=
    mem_parse_output raws mappings out h r hr
  refine ⟨?_, raw, hraw, hc, ?_⟩
  · rw [hamt]; exact ha
  · rw [hamt]; exact hp

/-- A fully well-formed raw credit row. -/
def rawGood : RawRow :=
  { datum := some "10.03.2025", gutschrift := some "50",
    zahlungszweck := some "Abo", details := some "jane",
    zkbReferenz := some "Z1" }

/-- A raw row with no credit cell at all (a debit). -/
def rawNoCredit : RawRow :=
  { datum := some "11.03.2025", gutschrift := none, zahlungszweck := none,
    details := none, zkbReferenz := none }

/-- A raw row with an empty credit cell. -/
def rawEmptyCredit : RawRow := { rawNoCredit with gutschrift := some "" }

/-- A raw row whose credit cell does not parse as a decimal. -/
def rawBadAmount : RawRow := { rawNoCredit with gutschrift := some "abc" }

/-- A raw row with a negative credit amount. -/
def rawNegAmount : RawRow := { rawNoCredit with gutschrift := some "-5" }

/-- The single row surviving the mixed batch below (day 10 → month
defaulted to "März"). -/
def parsedGood : Row :=
  { datum := some ⟨10, 3, 2025⟩, details := "jane", amount := 50,
    zahlungszweck := "Mitgliederbeitrag", mitglied := "", monat := "März",
    bemerkungen := "Abo", zkbReferenz := "Z1" }

/-- Witness for C6: of five raw rows, only the one with a positive,
parseable credit amount survives. -/
theorem parser_output_amounts_positive_witness :
    parse_csv_file [rawGood, rawNoCredit, rawEmptyCredit, rawBadAmount,
        rawNegAmount] [] = some [parsedGood] ∧
    ∀ r ∈ [parsedGood], 0 < r.amount ∧
      ∃ raw ∈ [rawGood, rawNoCredit, rawEmptyCredit, rawBadAmount,
          rawNegAmount], hasCredit raw ∧
        parseDecimal ((raw.gutschrift).getD "") = some r.amount :=
  ⟨by decide,
   parser_output_amounts_positive
     [rawGood, rawNoCredit, rawEmptyCredit, rawBadAmount, rawNegAmount] []
     [parsedGood] (by decide)⟩

/-! ### C7 — fixed validation order, first failure wins, commit gated -/

/-- Whether a validation outcome is one of the three completeness
failures. -/
def ValidationResult.isMissingField : ValidationResult → Bool
  | .missingZweck _ => true
  | .missingMember _ => true
  | .missingMonth _ => true
  | _ => false

/-- The transfer-button path of `run_csv_import_interface`: validate again
and call `transfer_to_member_database` only when validation succeeds. -/
def commit_if_valid (db : MemberDB) (mappings : Mappings) (rows : List Row)
    (ts : Nat) : Option (MemberDB × Mappings) :=
  if validate_import_data db rows = .ok then
    transfer_to_member_database db mappings rows ts
  else none

/-- The offending-row list of a completeness check is empty exactly when
no row trips the field test. -/
theorem missingIdx_eq_nil_iff (p : Row → Bool) (rows : List Row) :
    missingIdx p rows = [] ↔ ∀ r ∈ rows, p r = false := by
  unfold missingIdx
  rw [List.map_eq_nil_iff, List.filter_eq_nil_iff]
  constructor
  · intro h r hr
    have hr2 : r ∈ rows.enum.map Prod.snd := by
      rw [List.enum_map_snd]
      exact hr
    obtain ⟨x, hx, hxe⟩ := List.mem_map.mp hr2
    rw [← hxe]
    exact Bool.eq_false_iff.mpr (h x hx)
  · intro h x hx
    have hmem : x.2 ∈ rows := by
      have h2 : x.2 ∈ rows.enum.map Prod.snd := List.mem_map_of_mem Prod.snd hx
      rwa [List.enum_map_snd] at h2
    simp [h x.2 hmem]

/-- Claim C7: validation reports a completeness failure exactly when some
row lacks a purpose, member or month; with the batch complete, it reports
the duplicate groups exactly when one exists; with the batch complete and
duplicate-free, it reports the ledger conflicts exactly when one exists;
it succeeds exactly when all three checks pass — so the first failing
category in the fixed order is the one returned, with its offending rows
— and the transfer path commits nothing unless validation succeeds. -/
theorem validation_first_failure_order (db : MemberDB) (rows : List Row) :
    ((validate_import_data db rows).isMissingField = true ↔
      ∃ r ∈ rows, r.zahlungszweck = "" ∨ r.mitglied = "" ∨ r.monat = "") ∧
    (validate_import_data db rows = .duplicateInBatch (dupGroups rows) ↔
      (∀ r ∈ rows, r.zahlungszweck ≠ "" ∧ r.mitglied ≠ "" ∧ r.monat ≠ "") ∧
        dupGroups rows ≠ []) ∧
    (validate_import_data db rows =
        .alreadyRecorded (check_existing_entries db rows) ↔
      (∀ r ∈ rows, r.zahlungszweck ≠ "" ∧ r.mitglied ≠ "" ∧ r.monat ≠ "") ∧
        dupGroups rows = [] ∧ check_existing_entries db rows ≠ []) ∧
    (validate_import_data db rows = .ok ↔
      (∀ r ∈ rows, r.zahlungszweck ≠ "" ∧ r.mitglied ≠ "" ∧ r.monat ≠ "") ∧
        dupGroups rows = [] ∧ check_existing_entries db rows = []) ∧
    (∀ mappings ts, validate_import_data db rows ≠ .ok →
      commit_if_valid db mappings rows ts = none) := by
  have e1 := missingIdx_eq_nil_iff (fun r => r.zahlungszweck == "") rows
  have e2 := missingIdx_eq_nil_iff (fun r => r.mitglied == "") rows
  have e3 := missingIdx_eq_nil_iff (fun r => r.monat == "") rows
  unfold commit_if_valid
  unfold validate_import_data
  by_cases h1 : missingIdx (fun r => r.zahlungszweck == "") rows = [] <;>
    by_cases h2 : missingIdx (fun r => r.mitglied == "") rows = [] <;>
      by_cases h3 : missingIdx (fun r => r.monat == "") rows = [] <;>
        by_cases h4 : dupGroups rows = [] <;>
          by_cases h5 : check_existing_entries db rows = [] <;>
            simp_all [ValidationResult.isMissingField, beq_eq_false_iff_ne] <;>
            (try (apply And.intro)) <;>
            first
            | (obtain ⟨x, hx, he⟩ := e1
               refine ⟨x, hx, ?_⟩
               exact Or.inl he)
            | (obtain ⟨x, hx, he⟩ := e2
               refine ⟨x, hx, ?_⟩
               exact Or.inr (Or.inl he))
            | (obtain ⟨x, hx, he⟩ := e3
               refine ⟨x, hx, ?_⟩
               exact Or.inr (Or.inr he))
            | (obtain ⟨x, hx, he⟩ := e3
               refine ⟨x, hx, ?_⟩
               exact fun _ => he)
            | (obtain ⟨x, hx, he⟩ := e2
               refine ⟨x, hx, ?_⟩
               exact fun hc => absurd he hc)
            | (obtain ⟨x, hx, he⟩ := e1
               refine ⟨x, hx, ?_⟩
               exact fun hc => absurd he hc)

/-- A batch row for Jane with the month left unassigned. -/
def rowNoMonth : Row :=
  { datum := some ⟨5, 1, 2025⟩, details := "jane", amount := 50,
    zahlungszweck := "Mitgliederbeitrag", mitglied := "Jane Doe",
    monat := "", bemerkungen := "", zkbReferenz := "" }

/-- Witness for C7: a batch with a missing month is reported as a
completeness failure, and the guarded transfer path commits nothing. -/
theorem validation_first_failure_order_witness :
    (validate_import_data dbJane2025 [rowNoMonth]).isMissingField = true ∧
    commit_if_valid dbJane2025 [] [rowNoMonth] 0 = none :=
  ⟨(validation_first_failure_order dbJane2025 [rowNoMonth]).1.mpr
      ⟨rowNoMonth, by decide, by decide⟩,
   (validation_first_failure_order dbJane2025 [rowNoMonth]).2.2.2.2 [] 0
      (by decide)⟩

/-! ### C8 — the outstanding summary reads the hard-coded year "2025" -/

/-- The months 01..current month without a month key in the member's
**"2025"** contribution bucket — the set the source actually reports. -/
def unpaidMonths2025 (member : Member) (cm : Nat) : List String :=
  ((List.range' 1 cm).filter (fun m =>
    !(((member.contributions.lookup "2025").getD []).map Prod.fst).contains
      (pad2 m))).map pad2

/-- The accumulator loop of `calculate_outstanding_payments`, in closed
form: it appends the unpaid months in order and adds the monthly amount
once per unpaid month. -/
theorem outstanding_foldl (paid : List String) (monthly : ℚ) (ms : List Nat)
    (acc : List String) (t : ℚ) :
    ms.foldl (fun a m => if paid.contains (pad2 m) then a
        else (a.1 ++ [pad2 m], a.2 + monthly)) (acc, t) =
      (acc ++ (ms.filter (fun m => !paid.contains (pad2 m))).map pad2,
       t + monthly *
         ((ms.filter (fun m => !paid.contains (pad2 m))).length : ℚ)) := by
  induction ms generalizing acc t with
  | nil => simp
  | cons m rest ih =>
      by_cases hp : paid.contains (pad2 m)
      · simp only [List.foldl_cons, hp, if_true, List.filter_cons,
          Bool.not_true, Bool.false_eq_true, ite_false]
        rw [ih]
      · simp only [List.foldl_cons, hp, Bool.false_eq_true, if_false,
          List.filter_cons, Bool.not_false, ite_true, List.map_cons,
          List.length_cons]
        rw [ih]
        simp only [Prod.mk.injEq]
        constructor
        · simp
        · push_cast
          ring

/-- Claim C8 counterexample: the claim says the summary lists the months
with no contribution record for the *current* year.  The source hard-codes
the year key "2025": Jane's ledger holds a January record under the year
"2026", yet with current month 1 (and current year 2026) the query still
reports month "01" outstanding with money owed, while the spec's reading
of "current year" reports nothing outstanding. -/
theorem outstanding_summary_ignores_current_year :
    ((jane2026.contributions.lookup "2026").getD []).lookup "01" =
      some janContrib2026 ∧
    (calculate_outstanding_payments jane2026 1).1 = ["01"] ∧
    calculate_outstanding_payments jane2026 1 ≠ ([], 0) ∧
    outstandingPerSpec jane2026 "2026" 1 = ([], 0) := by
  refine ⟨by decide, by decide, ?_, by decide⟩
  intro hcontra
  have h1 : (calculate_outstanding_payments jane2026 1).1 = [] := by
    rw [hcontra]
  rw [show (calculate_outstanding_payments jane2026 1).1 = ["01"] from
    by decide] at h1
  exact List.noConfusion h1

/-- Claim C8 as amended: for an active (50/month) or passive (25/month)
member, the query returns exactly the months from 01 up to the current
month that have no contribution record **under the hard-coded year key
"2025"** (not the current year), with the total owed equal to the monthly
amount times the number of such months. -/
theorem outstanding_summary_months_and_total (member : Member) (cm : Nat)
    (h : member.mitgliedsform = "Aktiv" ∨ member.mitgliedsform = "Passiv") :
    calculate_outstanding_payments member cm =
      (unpaidMonths2025 member cm,
       (if member.mitgliedsform = "Aktiv" then (50 : ℚ) else 25) *
         (unpaidMonths2025 member cm).length) := by
  unfold calculate_outstanding_payments unpaidMonths2025
  rcases h with h | h <;> rw [h]
  · simp only [beq_self_eq_true, if_true]
    rw [if_neg (by norm_num : ¬(50 : ℚ) = 0)]
    rw [outstanding_foldl]
    simp
  · rw [show ("Passiv" == "Aktiv") = false from rfl,
      show ("Passiv" == "Passiv") = true from rfl]
    simp only [Bool.false_eq_true, if_false, if_true]
    rw [if_neg (by norm_num : ¬(25 : ℚ) = 0)]
    rw [outstanding_foldl]
    simp [show ¬("Passiv" = "Aktiv") from by decide]

/-- Witness for the amended C8: Jane (Active, no 2025 records) at current
month 3 owes for exactly the months 01, 02 and 03. -/
theorem outstanding_summary_months_and_total_witness :
    calculate_outstanding_payments janeActive 3 =
      (unpaidMonths2025 janeActive 3,
       (if janeActive.mitgliedsform = "Aktiv" then (50 : ℚ) else 25) *
         (unpaidMonths2025 janeActive 3).length) ∧
    unpaidMonths2025 janeActive 3 = ["01", "02", "03"] :=
  ⟨outstanding_summary_months_and_total janeActive 3 (Or.inl rfl), by decide⟩

/-! ### C1 (amended) — the conflict check reads only the 2025 bucket -/

/-- Whether one batch row trips the conflict check: its stripped member
name resolves, its stripped month label is a German month name, and the
member's **2025** contribution bucket already holds that month. -/
def rowConflicts2025 (db : MemberDB) (r : Row) : Bool :=
  match findMemberId db (strTrim r.mitglied),
      month_to_num (strTrim r.monat) with
  | some mid, some mn => (contribLookup db mid "2025" mn).isSome
  | _, _ => false

/-- One conflict-loop step only ever appends to its accumulator. -/
theorem checkRowStep_shift (db : MemberDB) (a : List String) (r : Row) :
    checkRowStep db a r = a ++ checkRowStep db [] r := by
  unfold checkRowStep
  cases findMemberId db (strTrim r.mitglied) with
  | none => simp
  | some mid =>
      cases month_to_num (strTrim r.monat) with
      | none => simp
      | some mn =>
          dsimp only
          split_ifs <;> simp

/-- The conflict loop started on an accumulator prepends it. -/
theorem check_foldl_shift (db : MemberDB) (rs : List Row) (a : List String) :
    rs.foldl (checkRowStep db) a = a ++ check_existing_entries db rs := by
  unfold check_existing_entries
  induction rs generalizing a with
  | nil => simp
  | cons r rest ih =>
      simp only [List.foldl_cons]
      rw [checkRowStep_shift db a r, ih, ih (checkRowStep db [] r),
        List.append_assoc]

/-- Looking up in a defaulted optional month map is the bind of the
lookup. -/
theorem lookup_getD_eq_bind (o : Option (List (String × Contribution)))
    (k : String) :
    List.lookup k (o.getD []) = o.bind (fun ms => List.lookup k ms) := by
  cases o <;> simp

/-- One conflict-loop step reports nothing exactly when the row does not
trip the (2025-keyed) conflict condition. -/
theorem checkRowStep_nil_iff (db : MemberDB) (r : Row) :
    checkRowStep db [] r = [] ↔ rowConflicts2025 db r = false := by
  unfold checkRowStep rowConflicts2025 contribLookup
  cases findMemberId db (strTrim r.mitglied) with
  | none => simp
  | some mid =>
      cases month_to_num (strTrim r.monat) with
      | none => simp
      | some mn =>
          dsimp only
          rw [lookup_getD_eq_bind]
          split_ifs with hl
          · simp [hl]
          · simp [hl]

/-- Claim C1 as amended: the ledger-conflict step passes exactly when no
batch row has a resolvable member, a recognized German month label, and
an existing contribution at (member, **"2025"**, month) — the year is
hard-coded to 2025, never taken from the transaction's date, so re-running
an already-committed batch is rejected only when its records sit in the
2025 bucket. -/
theorem ledger_conflict_hardcodes_2025 (db : MemberDB) (rows : List Row) :
    check_existing_entries db rows = [] ↔
      ∀ r ∈ rows, rowConflicts2025 db r = false := by
  induction rows with
  | nil => simp [check_existing_entries]
  | cons r rest ih =>
      have hc : check_existing_entries db (r :: rest) =
          checkRowStep db [] r ++ check_existing_entries db rest := by
        unfold check_existing_entries
        simp only [List.foldl_cons]
        exact check_foldl_shift db rest (checkRowStep db [] r)
      rw [hc, List.append_eq_nil]
      constructor
      · intro h x hx
        rcases List.mem_cons.mp hx with he | hm
        · subst he
          exact (checkRowStep_nil_iff db x).mp h.1
        · exact (ih.mp h.2) x hm
      · intro h
        exact ⟨(checkRowStep_nil_iff db r).mpr (h r (List.mem_cons_self r rest)),
          ih.mpr (fun x hx => h x (List.mem_cons_of_mem r hx))⟩

/-- Witness for the amended C1: the January-2026 re-run row trips nothing,
because its record sits in the 2026 bucket, not the 2025 one. -/
theorem ledger_conflict_hardcodes_2025_witness :
    check_existing_entries dbJane2026 [rowJan2026] = [] :=
  (ledger_conflict_hardcodes_2025 dbJane2026 [rowJan2026]).mpr (by decide)
